import Mathlib

/-!
Shallow embedding of the `twm` Telegram relay bot (`src/main.rs`).

The bot routes each inbound Telegram message either through the
`teloxide`-derived command parser into `handle_command`, or into
`handle_free_text`; the allow-list (`WhiteList`, a `HashSet<String>`
persisted as JSON) gates who may talk to the completion API (`ask_gpt`).
External effects are made explicit parameters of the embedded functions:
the outcome of the HTTP exchange (`HttpOutcome`), the outcome of the
durable write (`SaveOutcome`), and the state of the whitelist file at
startup (`FileState`). A Rust panic (`expect`, out-of-bounds index) inside
a handler aborts that message's spawned task without sending a reply; it is
modelled as an explicit `panicked` outcome.
-/

namespace Twm

/-- The fixed administrator identity, hard-coded in `handle_command`:
`matches!(username.as_deref(), Some("ksander314"))`. -/
def adminIdentity : String := "ksander314"

/-- The generic user-facing error text used when `ask_gpt` fails:
`.unwrap_or("Error contacting OpenAI.".to_string())`. -/
def genericError : String := "Error contacting OpenAI."

/-- The `Command` enum derived with `BotCommands`. -/
inductive Command
  | Ask (q : String)
  | AddUser (u : String)
  | RemoveUser (u : String)
  | ListUsers
  | Help
  deriving DecidableEq

/-- Administrator-only command variants (`adduser`, `removeuser`, `listusers`). -/
def Command.adminOnly : Command → Bool
  | .AddUser _ => true
  | .RemoveUser _ => true
  | .ListUsers => true
  | _ => false

/-- The `WhiteList` struct: `users: HashSet<String>`, modelled as a `Finset`. -/
structure WhiteList where
  users : Finset String
  deriving DecidableEq

/-- Outcome of one durable write (`WhiteList::save`). The Rust `save` panics via
`expect` if serialization, file creation or the write fails; `ioError` abstracts
any such failure, `ok` a completed write. -/
inductive SaveOutcome
  | ok
  | ioError
  deriving DecidableEq

/-- Result of a mutating store call. `returned b wl wrote` means the call
returned `b`, left the in-memory set in state `wl`, and invoked `save` iff
`wrote`. `panicked wl` means `save` panicked after the in-memory set had
already become `wl`; the caller observes no return value and sends no reply. -/
inductive MutResult
  | returned (b : Bool) (wl : WhiteList) (wrote : Bool)
  | panicked (wl : WhiteList)
  deriving DecidableEq

/-- The in-memory state after a mutating call, whether it returned or panicked. -/
def MutResult.state : MutResult → WhiteList
  | .returned _ wl _ => wl
  | .panicked wl => wl

/-- `WhiteList::is_allowed`: `self.users.contains(username)`. -/
def WhiteList.is_allowed (wl : WhiteList) (u : String) : Bool :=
  decide (u ∈ wl.users)

/-- `WhiteList::list`: a snapshot copy of the set. `HashSet` iteration order is
unspecified; it is determinized here as the sorted order (the spec allows any
order and recommends sorted). -/
def WhiteList.list (wl : WhiteList) : List String :=
  wl.users.sort (· ≤ ·)

/-- `WhiteList::add_user`: `let added = self.users.insert(username.to_string());
if added { self.save(); } added`, with the durable-write outcome passed
explicitly. When the identity is already present no write is attempted. -/
def WhiteList.add_user (wl : WhiteList) (u : String) (s : SaveOutcome) : MutResult :=
  if u ∈ wl.users then .returned false wl false
  else
    match s with
    | .ok => .returned true ⟨insert u wl.users⟩ true
    | .ioError => .panicked ⟨insert u wl.users⟩

/-- `WhiteList::remove_user`: `let removed = self.users.remove(username);
if removed { self.save(); } removed`, with the durable-write outcome passed
explicitly. -/
def WhiteList.remove_user (wl : WhiteList) (u : String) (s : SaveOutcome) : MutResult :=
  if u ∈ wl.users then
    match s with
    | .ok => .returned true ⟨wl.users.erase u⟩ true
    | .ioError => .panicked ⟨wl.users.erase u⟩
  else .returned false wl false

/-- Observable outcome of the HTTP exchange inside `ask_gpt`: either the
transport layer fails (`client.post(..).send().await?` is `Err`), or a response
arrives and `response.json::<ChatResponse>().await` either fails to decode
(`body none`, covering malformed bodies — in particular the error bodies of
non-success HTTP statuses, which the code never inspects) or decodes, yielding
the list of `choices[i].message.content` strings (`body (some contents)`). -/
inductive HttpOutcome
  | transportErr
  | body (decoded : Option (List String))
  deriving DecidableEq

/-- Result of `ask_gpt`. `panicked` is the out-of-bounds index
`result.choices[0]` on an empty `choices` array, which aborts the calling
task. -/
inductive AskResult
  | ok (s : String)
  | err
  | panicked
  deriving DecidableEq

/-- `ask_gpt`: transport and decode failures propagate as `Err` via `?`; on a
decoded body the function returns `result.choices[0].message.content.clone()`,
which panics when `choices` is empty. -/
def ask_gpt : HttpOutcome → AskResult
  | .transportErr => .err
  | .body none => .err
  | .body (some []) => .panicked
  | .body (some (c :: _)) => .ok c

/-- One outbound `bot.send_message` reply, identified by the arm of
`handle_command` / `handle_free_text` that produced it; payloads carry the
varying parts of the formatted text. -/
inductive Reply
  | removedMsg (u : String)
  | notInMsg (u : String)
  | addedMsg (u : String)
  | alreadyInMsg (u : String)
  | listMsg (l : List String)
  | askMsg (s : String)
  | helpMsg
  | deniedMsg
  deriving DecidableEq

/-- Result of handling one inbound message: the replies sent (in order), the
whitelist state afterwards, and whether the handler task panicked. -/
structure DispatchResult where
  replies : List Reply
  wl : WhiteList
  panicked : Bool
  deriving DecidableEq

/-- `let is_admin = matches!(username.as_deref(), Some("ksander314"));`. -/
def isAdminName (username : Option String) : Bool :=
  username == some adminIdentity

/-- The `is_allowed` binding computed by both handlers: whitelist membership
when an identity is present, `false` for an anonymous sender. -/
def isAllowedName (username : Option String) (wl : WhiteList) : Bool :=
  match username with
  | some u => wl.is_allowed u
  | none => false

/-- `handle_command`: the `match cmd` of `src/main.rs` with its arms in source
order; an arm whose `if is_admin` / `if is_allowed` guard fails falls through
to the final `_ => "⛔️ Access denied"` arm. -/
def handle_command (gpt : String → HttpOutcome) (saveOut : SaveOutcome)
    (username : Option String) (wl : WhiteList) : Command → DispatchResult
  | .RemoveUser user =>
    if isAdminName username then
      match wl.remove_user user saveOut with
      | .returned true wl2 _ => ⟨[.removedMsg user], wl2, false⟩
      | .returned false wl2 _ => ⟨[.notInMsg user], wl2, false⟩
      | .panicked wl2 => ⟨[], wl2, true⟩
    else ⟨[.deniedMsg], wl, false⟩
  | .AddUser user =>
    if isAdminName username then
      match wl.add_user user saveOut with
      | .returned true wl2 _ => ⟨[.addedMsg user], wl2, false⟩
      | .returned false wl2 _ => ⟨[.alreadyInMsg user], wl2, false⟩
      | .panicked wl2 => ⟨[], wl2, true⟩
    else ⟨[.deniedMsg], wl, false⟩
  | .ListUsers =>
    if isAdminName username then ⟨[.listMsg wl.list], wl, false⟩
    else ⟨[.deniedMsg], wl, false⟩
  | .Ask q =>
    if isAllowedName username wl then
      match ask_gpt (gpt q) with
      | .ok s => ⟨[.askMsg s], wl, false⟩
      | .err => ⟨[.askMsg genericError], wl, false⟩
      | .panicked => ⟨[], wl, true⟩
    else ⟨[.deniedMsg], wl, false⟩
  | .Help => ⟨[.helpMsg], wl, false⟩

/-- `handle_free_text`: denial when `is_allowed` is false; otherwise, only when
the message has text, one completion exchange and one reply. An allow-listed
sender whose message has no text (`msg.text()` is `None`) gets no reply: the
`if let Some(text)` has no `else` branch. -/
def handle_free_text (gpt : String → HttpOutcome)
    (username : Option String) (text : Option String) (wl : WhiteList) : DispatchResult :=
  if isAllowedName username wl then
    match text with
    | some t =>
      match ask_gpt (gpt t) with
      | .ok s => ⟨[.askMsg s], wl, false⟩
      | .err => ⟨[.askMsg genericError], wl, false⟩
      | .panicked => ⟨[], wl, true⟩
    | none => ⟨[], wl, false⟩
  else ⟨[.deniedMsg], wl, false⟩

/-- One inbound Telegram message as observed by the handlers:
`msg.from().and_then(|u| u.username)` and `msg.text()`. -/
structure Msg where
  username : Option String
  text : Option String
  deriving DecidableEq

/-- Leading and trailing space removal (the spec's "trimmed" argument). -/
def trimSpaces (l : List Char) : List Char :=
  ((l.dropWhile (fun c => c = ' ')).reverse.dropWhile (fun c => c = ' ')).reverse

/-- Modelled from the spec: the command parser is generated by the `teloxide`
derive (`BotCommands`, `rename_rule = "lowercase"`), whose code is not part of
this repository. Per spec §6: a leading `/` sigil, a case-insensitive keyword
among `ask adduser removeuser listusers help`, and the remaining text trimmed
as the single argument; missing sigil or unknown keyword is a parse failure
(the message is then routed as free text). -/
def parseCommand (s : String) : Option Command :=
  match s.data with
  | '/' :: rest =>
    let keyword := (rest.takeWhile (fun c => c ≠ ' ')).map Char.toLower
    let arg : String := ⟨trimSpaces (rest.dropWhile (fun c => c ≠ ' '))⟩
    if keyword = "ask".data then some (.Ask arg)
    else if keyword = "adduser".data then some (.AddUser arg)
    else if keyword = "removeuser".data then some (.RemoveUser arg)
    else if keyword = "listusers".data then some .ListUsers
    else if keyword = "help".data then some .Help
    else none
  | _ => none

/-- `main`'s routing: a message whose text parses as a `Command` goes to
`handle_command`; the `filter_map` branch sends every other message (absent
text treated as `""`, per `msg.text().unwrap_or("")`) to `handle_free_text`. -/
def dispatch (gpt : String → HttpOutcome) (saveOut : SaveOutcome)
    (m : Msg) (wl : WhiteList) : DispatchResult :=
  match parseCommand (m.text.getD "") with
  | some cmd => handle_command gpt saveOut m.username wl cmd
  | none => handle_free_text gpt m.username m.text wl

/-- State of the whitelist file as observed by `WhiteList::load`: absent
(`!path.exists()`), existing but unopenable (`File::open` fails), or readable
with `serde_json::from_reader` outcome `parsed` (`none` = malformed content). -/
inductive FileState
  | absent
  | unopenable
  | readable (parsed : Option WhiteList)
  deriving DecidableEq

/-- Result of `WhiteList::load`: a store, or a startup panic
(`File::open(..).expect("Failed to open whitelist file")`). -/
inductive LoadResult
  | ok (wl : WhiteList)
  | fatal
  deriving DecidableEq

/-- `WhiteList::load`: missing file yields the `Default` (empty) store;
malformed content yields the `Default` store via `unwrap_or_default`; an
existing file that cannot be opened panics at startup. -/
def WhiteList.load : FileState → LoadResult
  | .absent => .ok ⟨∅⟩
  | .unopenable => .fatal
  | .readable none => .ok ⟨∅⟩
  | .readable (some wl) => .ok wl

/-- The JSON data model. `serde_json`'s rendering of this tree to text and its
parsing back are external library code, modelled as the identity on the tree. -/
inductive Json
  | str (s : String)
  | num (n : Int)
  | jbool (b : Bool)
  | jnull
  | arr (l : List Json)
  | obj (fields : List (String × Json))

/-- The JSON value written by `WhiteList::save`: serde `Serialize` derived for
`WhiteList` produces one object with a `users` field holding the array of
members (`HashSet` iteration order determinized as sorted, as in
`WhiteList.list`). -/
def whitelistToJson (wl : WhiteList) : Json :=
  .obj [("users", .arr (wl.list.map .str))]

/-- serde sequence visiting for `HashSet<String>`: every element of the JSON
array must be a string. -/
def strListFromJson : List Json → Option (List String)
  | [] => some []
  | .str s :: rest => (strListFromJson rest).map (fun l => s :: l)
  | _ :: _ => none

/-- serde `Deserialize` derived for `WhiteList`: an object whose `users` field
is an array of strings, collected into the set (duplicates collapse). -/
def whitelistFromJson : Json → Option WhiteList
  | .obj fields =>
    match fields.lookup "users" with
    | some (.arr items) =>
      match strListFromJson items with
      | some l => some ⟨l.toFinset⟩
      | none => none
    | _ => none
  | _ => none

/-- Sequential composition of completed `add_user` calls: N concurrent adds
serialize under the store's exclusive `tokio::sync::Mutex`, whose guard in
`handle_command` is held across the in-memory insert and the `save` call, so
each add is atomic and some interleaving order of the N calls results. -/
def addAll (l : List String) (wl : WhiteList) : WhiteList :=
  l.foldl (fun w u => (w.add_user u .ok).state) wl

/-- Helper: an `add_user` call with a successful write never panics. -/
theorem add_user_ok_not_panic (wl : WhiteList) (u : String) (wl2 : WhiteList) :
    wl.add_user u .ok ≠ .panicked wl2 := by
  by_cases h : u ∈ wl.users <;> simp [WhiteList.add_user, h]

/-- Helper: a `remove_user` call with a successful write never panics. -/
theorem remove_user_ok_not_panic (wl : WhiteList) (u : String) (wl2 : WhiteList) :
    wl.remove_user u .ok ≠ .panicked wl2 := by
  by_cases h : u ∈ wl.users <;> simp [WhiteList.remove_user, h]

/-- Helper: after `add_user` (with successful write) the in-memory set is the
old set plus the added identity, whether or not it was already present. -/
theorem add_user_state_users (wl : WhiteList) (u : String) :
    ((wl.add_user u .ok).state).users = insert u wl.users := by
  by_cases h : u ∈ wl.users
  · simp [WhiteList.add_user, MutResult.state, h, Finset.insert_eq_self.mpr h]
  · simp [WhiteList.add_user, MutResult.state, h]

/-- Helper: folding `add_user` over a list of identities unions them in. -/
theorem addAll_users (l : List String) (wl : WhiteList) :
    (addAll l wl).users = wl.users ∪ l.toFinset := by
  induction l generalizing wl with
  | nil => simp [addAll]
  | cons u rest ih =>
    have h1 : addAll (u :: rest) wl = addAll rest ((wl.add_user u .ok).state) := rfl
    rw [h1, ih, add_user_state_users]
    simp [List.toFinset_cons, Finset.insert_union, Finset.union_insert]

/-- Helper: serde sequence visiting inverts the element-wise `str` wrapping. -/
theorem strListFromJson_map (l : List String) :
    strListFromJson (l.map Json.str) = some l := by
  induction l with
  | nil => rfl
  | cons s rest ih => simp [strListFromJson, ih]

/-- Claim C6 (confirmed): `add(x)` returns `true` and performs the durable
write iff `x` was absent; when `x` is present it returns `false`, leaves the
state unchanged and performs no write; hence a second `add(x)` right after a
first one returns `false`, writes nothing, and the store contains `x` (exactly
once, by set semantics). -/
theorem add_user_spec (wl : WhiteList) (x : String) :
    (x ∉ wl.users → wl.add_user x .ok = .returned true ⟨insert x wl.users⟩ true) ∧
    (∀ s, x ∈ wl.users → wl.add_user x s = .returned false wl false) ∧
    (∀ s, (wl.add_user x .ok).state.add_user x s =
      .returned false (wl.add_user x .ok).state false) ∧
    x ∈ (wl.add_user x .ok).state.users := by
  refine ⟨fun h => by simp [WhiteList.add_user, h],
          fun s h => by simp [WhiteList.add_user, h],
          fun s => ?_, ?_⟩
  · have hx : x ∈ ((wl.add_user x .ok).state).users := by
      rw [add_user_state_users]; exact Finset.mem_insert_self x wl.users
    generalize hW : (wl.add_user x .ok).state = W at hx ⊢
    simp [WhiteList.add_user, hx]
  · rw [add_user_state_users]; exact Finset.mem_insert_self x wl.users

/-- Claim C6 witness: adding `bob` to the empty store returns `true`, inserts
`bob`, and writes. -/
theorem add_user_spec_witness :
    (⟨∅⟩ : WhiteList).add_user "bob" .ok = .returned true ⟨insert "bob" ∅⟩ true :=
  (add_user_spec ⟨∅⟩ "bob").1 (by decide)

/-- Claim C7 counterexample: with the store already containing `bob`,
`add("bob")` (a no-op returning `false`) followed by `remove("bob")` leaves the
store empty, not equal to its pre-add content. -/
theorem add_remove_cex :
    (((⟨{"bob"}⟩ : WhiteList).add_user "bob" .ok).state.remove_user "bob" .ok).state
      ≠ ⟨{"bob"}⟩ := by decide

/-- Claim C7 (corrected): when `x` was not already present, `add(x)` followed
by `remove(x)` restores the store to its pre-add content exactly. -/
theorem add_remove_restores (wl : WhiteList) (x : String) (h : x ∉ wl.users) :
    ((wl.add_user x .ok).state.remove_user x .ok).state = wl := by
  simp [WhiteList.add_user, h, MutResult.state, WhiteList.remove_user,
    Finset.mem_insert_self, Finset.erase_insert h]

/-- Claim C7 witness: add-then-remove of `alice` on the empty store restores
the empty store. -/
theorem add_remove_restores_witness :
    (((⟨∅⟩ : WhiteList).add_user "alice" .ok).state.remove_user "alice" .ok).state
      = ⟨∅⟩ :=
  add_remove_restores ⟨∅⟩ "alice" (by decide)

/-- Claim C5 counterexample: when the durable write fails during
`/adduser bob` by the administrator on an empty store, no reply at all is sent
(the claim requires an error reply), the handler panics, and the in-memory set
already contains `bob` — out of sync with the unwritten durable record and
different from the prior state. -/
theorem write_failure_cex :
    (handle_command (fun _ => .transportErr) .ioError (some adminIdentity) ⟨∅⟩
        (.AddUser "bob")).replies = [] ∧
    (handle_command (fun _ => .transportErr) .ioError (some adminIdentity) ⟨∅⟩
        (.AddUser "bob")).panicked = true ∧
    (handle_command (fun _ => .transportErr) .ioError (some adminIdentity) ⟨∅⟩
        (.AddUser "bob")).wl = ⟨{"bob"}⟩ := by
  decide

/-- Claim C5 (corrected): a failed durable write makes `add_user` panic via
`save`'s `expect` after the in-memory insert: the handler aborts with no reply,
and the in-memory set keeps the new identity (diverging from the durable
record, which the failed write left at the prior state). The panic is confined
to that message's spawned task, so it is not fatal to the process. -/
theorem write_failure_panics (wl : WhiteList) (u : String) (gpt : String → HttpOutcome)
    (h : u ∉ wl.users) :
    wl.add_user u .ioError = .panicked ⟨insert u wl.users⟩ ∧
    handle_command gpt .ioError (some adminIdentity) wl (.AddUser u) =
      ⟨[], ⟨insert u wl.users⟩, true⟩ := by
  constructor
  · simp [WhiteList.add_user, h]
  · simp [handle_command, isAdminName, WhiteList.add_user, h]

/-- Claim C5 witness: adding `eve` to the empty store with a failing write
panics with `eve` left in memory. -/
theorem write_failure_panics_witness :
    (⟨∅⟩ : WhiteList).add_user "eve" .ioError = .panicked ⟨insert "eve" ∅⟩ :=
  (write_failure_panics ⟨∅⟩ "eve" (fun _ => .transportErr) (by decide)).1

/-- Claim C8 (confirmed): `load` yields the empty store for a missing file and
for malformed content (parse failure never aborts startup), and is
process-fatal exactly when the file exists but cannot be opened. -/
theorem load_spec :
    WhiteList.load .absent = .ok ⟨∅⟩ ∧
    WhiteList.load (.readable none) = .ok ⟨∅⟩ ∧
    (∀ f, WhiteList.load f = .fatal ↔ f = .unopenable) := by
  refine ⟨rfl, rfl, fun f => ?_⟩
  cases f with
  | absent => simp [WhiteList.load]
  | unopenable => simp [WhiteList.load]
  | readable p => cases p <;> simp [WhiteList.load]

/-- Claim C10 (confirmed): the JSON record written by `save` deserializes back
to exactly the in-memory set — the durable record round-trips the store
without loss or duplication. -/
theorem save_load_round_trip (wl : WhiteList) :
    whitelistFromJson (whitelistToJson wl) = some wl := by
  simp [whitelistToJson, whitelistFromJson, List.lookup, strListFromJson_map,
    WhiteList.list, Finset.sort_toFinset]

/-- Claim C9 (confirmed): each `add` is atomic (the `tokio::sync::Mutex` guard
is held across the insert and the `save`), so N concurrent adds execute as the
adds of some permutation `k` of the N distinct identities `l`; every such
interleaving leaves the store containing exactly those N identities. -/
theorem concurrent_adds_no_lost_update (l k : List String)
    (_hnd : l.Nodup) (hperm : k.Perm l) :
    (addAll k ⟨∅⟩).users = l.toFinset := by
  rw [addAll_users, List.toFinset_eq_of_perm k l hperm]
  simp

/-- Claim C9 witness: the two interleavings of adds of `alice` and `bob` on the
empty store both produce exactly the set of those two identities. -/
theorem concurrent_adds_no_lost_update_witness :
    (addAll ["bob", "alice"] ⟨∅⟩).users = (["alice", "bob"] : List String).toFinset :=
  concurrent_adds_no_lost_update ["alice", "bob"] ["bob", "alice"] (by decide)
    (List.Perm.swap "alice" "bob" [])

/-- Helper: `handle_command` either sends exactly one reply without panicking,
or panics having sent none (the `match` is exhaustive: no message is dropped
without a panic). -/
theorem handle_command_cases (gpt : String → HttpOutcome) (s : SaveOutcome)
    (username : Option String) (wl : WhiteList) (cmd : Command) :
    (∃ r wl2, handle_command gpt s username wl cmd = ⟨[r], wl2, false⟩) ∨
    (∃ wl2, handle_command gpt s username wl cmd = ⟨[], wl2, true⟩) := by
  cases cmd with
  | RemoveUser user =>
    cases h : isAdminName username with
    | true =>
      cases hr : wl.remove_user user s with
      | returned b wl2 w =>
        cases b
        · exact Or.inl ⟨.notInMsg user, wl2, by simp [handle_command, h, hr]⟩
        · exact Or.inl ⟨.removedMsg user, wl2, by simp [handle_command, h, hr]⟩
      | panicked wl2 => exact Or.inr ⟨wl2, by simp [handle_command, h, hr]⟩
    | false => exact Or.inl ⟨.deniedMsg, wl, by simp [handle_command, h]⟩
  | AddUser user =>
    cases h : isAdminName username with
    | true =>
      cases hr : wl.add_user user s with
      | returned b wl2 w =>
        cases b
        · exact Or.inl ⟨.alreadyInMsg user, wl2, by simp [handle_command, h, hr]⟩
        · exact Or.inl ⟨.addedMsg user, wl2, by simp [handle_command, h, hr]⟩
      | panicked wl2 => exact Or.inr ⟨wl2, by simp [handle_command, h, hr]⟩
    | false => exact Or.inl ⟨.deniedMsg, wl, by simp [handle_command, h]⟩
  | ListUsers =>
    cases h : isAdminName username with
    | true => exact Or.inl ⟨.listMsg wl.list, wl, by simp [handle_command, h]⟩
    | false => exact Or.inl ⟨.deniedMsg, wl, by simp [handle_command, h]⟩
  | Ask q =>
    cases h : isAllowedName username wl with
    | true =>
      cases hgq : ask_gpt (gpt q) with
      | ok r => exact Or.inl ⟨.askMsg r, wl, by simp [handle_command, h, hgq]⟩
      | err => exact Or.inl ⟨.askMsg genericError, wl, by simp [handle_command, h, hgq]⟩
      | panicked => exact Or.inr ⟨wl, by simp [handle_command, h, hgq]⟩
    | false => exact Or.inl ⟨.deniedMsg, wl, by simp [handle_command, h]⟩
  | Help => exact Or.inl ⟨.helpMsg, wl, by simp [handle_command]⟩

/-- Helper: with a successful durable write and no empty-choices completion
body, `handle_command` never panics. -/
theorem handle_command_ok_no_panic (gpt : String → HttpOutcome)
    (username : Option String) (wl : WhiteList) (cmd : Command)
    (hg : ∀ q, ask_gpt (gpt q) ≠ .panicked) :
    (handle_command gpt .ok username wl cmd).panicked = false := by
  cases cmd with
  | RemoveUser user =>
    cases h : isAdminName username with
    | true =>
      cases hr : wl.remove_user user .ok with
      | returned b wl2 w => cases b <;> simp [handle_command, h, hr]
      | panicked wl2 => exact absurd hr (remove_user_ok_not_panic wl user wl2)
    | false => simp [handle_command, h]
  | AddUser user =>
    cases h : isAdminName username with
    | true =>
      cases hr : wl.add_user user .ok with
      | returned b wl2 w => cases b <;> simp [handle_command, h, hr]
      | panicked wl2 => exact absurd hr (add_user_ok_not_panic wl user wl2)
    | false => simp [handle_command, h]
  | ListUsers => cases h : isAdminName username <;> simp [handle_command, h]
  | Ask q =>
    cases h : isAllowedName username wl with
    | true =>
      cases hgq : ask_gpt (gpt q) with
      | ok r => simp [handle_command, h, hgq]
      | err => simp [handle_command, h, hgq]
      | panicked => exact absurd hgq (hg q)
    | false => simp [handle_command, h]
  | Help => simp [handle_command]

/-- Claim C1 counterexample: the administrator (`ksander314`), not a member of
the empty allow-list, sends `Ask` (and free text) while the completion bridge
would succeed — yet the reply is the denial, not the completion: the `Ask` arm
is guarded by allow-list membership only, so the administrator may NOT perform
every command. -/
theorem admin_ask_denied_cex :
    (handle_command (fun _ => .body (some ["hi"])) .ok (some adminIdentity) ⟨∅⟩
        (.Ask "q")).replies = [.deniedMsg] ∧
    (handle_free_text (fun _ => .body (some ["hi"])) (some adminIdentity) (some "hello")
        ⟨∅⟩).replies = [.deniedMsg] := by decide

/-- Claim C1 (corrected): the administrator may always perform `AddUser`,
`RemoveUser`, `ListUsers` and `Help` regardless of allow-list membership, but
an `Ask` command or free text from the administrator is denied exactly when the
administrator's identity is not in the allow-list store. -/
theorem admin_powers (gpt : String → HttpOutcome) (wl : WhiteList) (u q : String) :
    (handle_command gpt .ok (some adminIdentity) wl .ListUsers).replies
      = [.listMsg wl.list] ∧
    (handle_command gpt .ok (some adminIdentity) wl .Help).replies = [.helpMsg] ∧
    (handle_command gpt .ok (some adminIdentity) wl (.AddUser u)).replies
      = (if u ∈ wl.users then [.alreadyInMsg u] else [.addedMsg u]) ∧
    (handle_command gpt .ok (some adminIdentity) wl (.RemoveUser u)).replies
      = (if u ∈ wl.users then [.removedMsg u] else [.notInMsg u]) ∧
    ((handle_command gpt .ok (some adminIdentity) wl (.Ask q)).replies = [.deniedMsg]
      ↔ adminIdentity ∉ wl.users) ∧
    ((handle_free_text gpt (some adminIdentity) (some q) wl).replies = [.deniedMsg]
      ↔ adminIdentity ∉ wl.users) := by
  have hA : isAdminName (some adminIdentity) = true := by simp [isAdminName]
  refine ⟨by simp [handle_command, hA], by simp [handle_command], ?_, ?_, ?_, ?_⟩
  · by_cases h : u ∈ wl.users <;> simp [handle_command, hA, WhiteList.add_user, h]
  · by_cases h : u ∈ wl.users <;> simp [handle_command, hA, WhiteList.remove_user, h]
  · by_cases hm : adminIdentity ∈ wl.users
    · have hall : isAllowedName (some adminIdentity) wl = true := by
        simp [isAllowedName, WhiteList.is_allowed, hm]
      cases hgq : ask_gpt (gpt q) <;> simp [handle_command, hall, hgq, hm]
    · have hall : isAllowedName (some adminIdentity) wl = false := by
        simp [isAllowedName, WhiteList.is_allowed, hm]
      simp [handle_command, hall, hm]
  · by_cases hm : adminIdentity ∈ wl.users
    · have hall : isAllowedName (some adminIdentity) wl = true := by
        simp [isAllowedName, WhiteList.is_allowed, hm]
      cases hgq : ask_gpt (gpt q) <;> simp [handle_free_text, hall, hgq, hm]
    · have hall : isAllowedName (some adminIdentity) wl = false := by
        simp [isAllowedName, WhiteList.is_allowed, hm]
      simp [handle_free_text, hall, hm]

/-- Claim C2 (code bug): transport failure and an undecodable response body
(which is how a non-success HTTP status manifests, since the code never
inspects the status) are both surfaced — for every allow-listed sender, on
both the `Ask` command path and the free-text path — as the single generic
error reply, with the internal cause never placed in the reply; but a
well-formed body whose `choices` array is empty makes `result.choices[0]`
panic: the task aborts and no reply at all is sent, instead of the generic
error reply the claim requires. -/
theorem ask_gpt_failure_modes (username : Option String) (wl : WhiteList) (q : String) :
    ask_gpt .transportErr = .err ∧
    ask_gpt (.body none) = .err ∧
    ask_gpt (.body (some [])) = .panicked ∧
    (isAllowedName username wl = true →
      (handle_command (fun _ => .transportErr) .ok username wl (.Ask q)).replies
        = [.askMsg genericError] ∧
      (handle_command (fun _ => .body none) .ok username wl (.Ask q)).replies
        = [.askMsg genericError] ∧
      (handle_free_text (fun _ => .transportErr) username (some q) wl).replies
        = [.askMsg genericError] ∧
      (handle_free_text (fun _ => .body none) username (some q) wl).replies
        = [.askMsg genericError] ∧
      (handle_command (fun _ => .body (some [])) .ok username wl (.Ask q)).replies = [] ∧
      (handle_command (fun _ => .body (some [])) .ok username wl (.Ask q)).panicked = true ∧
      (handle_free_text (fun _ => .body (some [])) username (some q) wl).replies = [] ∧
      (handle_free_text (fun _ => .body (some [])) username (some q) wl).panicked = true) := by
  refine ⟨rfl, rfl, rfl, fun hall => ?_⟩
  refine ⟨?_, ?_, ?_, ?_, ?_, ?_, ?_, ?_⟩ <;>
    simp [handle_command, handle_free_text, ask_gpt, hall]

/-- Claim C2 witness: the allow-listed sender `bob` asking `hi` during a
transport failure receives exactly the generic error reply. -/
theorem ask_gpt_failure_modes_witness :
    (handle_command (fun _ => HttpOutcome.transportErr) .ok (some "bob") ⟨{"bob"}⟩
        (.Ask "hi")).replies = [.askMsg genericError] :=
  ((ask_gpt_failure_modes (some "bob") ⟨{"bob"}⟩ "hi").2.2.2 (by decide)).1

/-- Claim C3 (confirmed): `handle_command` is total — at most one reply, and
exactly one whenever no panic occurs — and matches the rule table: an
anonymous sender is denied for every command except `Help`; `Help` is answered
with the help text regardless of identity (the spec's "even denied senders
receive help text"); the administrator-only commands are denied for every
non-admin sender; and `Ask` is denied exactly when the sender is not
allow-listed. The same rule governs the free-text path: `handle_free_text`
sends at most one reply, denies every anonymous message, and denies exactly
when the sender is not allow-listed. -/
theorem authorization_table (gpt : String → HttpOutcome) (s : SaveOutcome)
    (username : Option String) (wl : WhiteList) (cmd : Command) :
    (handle_command gpt s username wl cmd).replies.length ≤ 1 ∧
    ((handle_command gpt s username wl cmd).panicked = false →
      (handle_command gpt s username wl cmd).replies.length = 1) ∧
    (username = none → cmd ≠ .Help →
      (handle_command gpt s username wl cmd).replies = [.deniedMsg]) ∧
    ((handle_command gpt s username wl .Help).replies = [.helpMsg]) ∧
    (cmd.adminOnly = true → username ≠ some adminIdentity →
      (handle_command gpt s username wl cmd).replies = [.deniedMsg]) ∧
    (∀ q, (handle_command gpt s username wl (.Ask q)).replies = [.deniedMsg] ↔
      isAllowedName username wl = false) ∧
    (∀ text, (handle_free_text gpt username text wl).replies.length ≤ 1) ∧
    (username = none → ∀ text,
      (handle_free_text gpt username text wl).replies = [.deniedMsg]) ∧
    (∀ text, (handle_free_text gpt username text wl).replies = [.deniedMsg] ↔
      isAllowedName username wl = false) := by
  refine ⟨?_, ?_, ?_, by simp [handle_command], ?_, ?_, ?_, ?_, ?_⟩
  · rcases handle_command_cases gpt s username wl cmd with ⟨r, wl2, heq⟩ | ⟨wl2, heq⟩ <;>
      simp [heq]
  · intro hnp
    rcases handle_command_cases gpt s username wl cmd with ⟨r, wl2, heq⟩ | ⟨wl2, heq⟩
    · simp [heq]
    · rw [heq] at hnp; simp at hnp
  · intro hu hne; subst hu
    cases cmd with
    | Help => exact absurd rfl hne
    | Ask q => simp [handle_command, show isAllowedName none wl = false from rfl]
    | AddUser u2 => simp [handle_command, show isAdminName none = false from rfl]
    | RemoveUser u2 => simp [handle_command, show isAdminName none = false from rfl]
    | ListUsers => simp [handle_command, show isAdminName none = false from rfl]
  · intro hadm hne
    have hA : isAdminName username = false := beq_eq_false_iff_ne.mpr hne
    cases cmd with
    | AddUser u2 => simp [handle_command, hA]
    | RemoveUser u2 => simp [handle_command, hA]
    | ListUsers => simp [handle_command, hA]
    | Ask q => simp [Command.adminOnly] at hadm
    | Help => simp [Command.adminOnly] at hadm
  · intro q
    cases hall : isAllowedName username wl with
    | true => cases hgq : ask_gpt (gpt q) <;> simp [handle_command, hall, hgq]
    | false => simp [handle_command, hall]
  · intro text
    cases hall : isAllowedName username wl with
    | true =>
      cases text with
      | none => simp [handle_free_text, hall]
      | some t => cases hgq : ask_gpt (gpt t) <;> simp [handle_free_text, hall, hgq]
    | false => simp [handle_free_text, hall]
  · intro hu text; subst hu
    simp [handle_free_text, show isAllowedName none wl = false from rfl]
  · intro text
    cases hall : isAllowedName username wl with
    | true =>
      cases text with
      | none => simp [handle_free_text, hall]
      | some t => cases hgq : ask_gpt (gpt t) <;> simp [handle_free_text, hall, hgq]
    | false => simp [handle_free_text, hall]

/-- Claim C3 witness: an anonymous `AddUser` request is denied. -/
theorem authorization_table_witness :
    (handle_command (fun _ => HttpOutcome.transportErr) .ok none ⟨∅⟩
        (.AddUser "eve")).replies = [.deniedMsg] :=
  (authorization_table (fun _ => HttpOutcome.transportErr) .ok none ⟨∅⟩
    (.AddUser "eve")).2.2.1 rfl (by decide)

/-- Claim C4 counterexample: a message with absent text from an allow-listed
sender is routed to `handle_free_text`, passes the allow check, and then the
`if let Some(text)` falls through silently — no reply is emitted at all. -/
theorem silent_drop_cex :
    (dispatch (fun _ => .transportErr) .ok ⟨some "bob", none⟩ ⟨{"bob"}⟩).replies = [] := by
  decide

/-- Claim C4 (corrected): in the absence of panics (durable writes succeed and
no completion response decodes to an empty `choices` array), every inbound
message produces exactly one reply — except a message with absent text from an
allow-listed sender, which produces none. -/
theorem one_reply_per_message (gpt : String → HttpOutcome) (m : Msg) (wl : WhiteList)
    (hg : ∀ q, ask_gpt (gpt q) ≠ .panicked) :
    (dispatch gpt .ok m wl).replies.length =
      (if m.text = none ∧ isAllowedName m.username wl = true then 0 else 1) := by
  obtain ⟨username, text⟩ := m
  cases text with
  | none =>
    have hp : parseCommand "" = none := rfl
    cases hall : isAllowedName username wl with
    | true => simp [dispatch, hp, handle_free_text, hall]
    | false => simp [dispatch, hp, handle_free_text, hall]
  | some t =>
    cases hp : parseCommand t with
    | some cmd =>
      have hnp := handle_command_ok_no_panic gpt username wl cmd hg
      rcases handle_command_cases gpt .ok username wl cmd with ⟨r, wl2, heq⟩ | ⟨wl2, heq⟩
      · simp [dispatch, hp, heq]
      · rw [heq] at hnp; simp at hnp
    | none =>
      cases hall : isAllowedName username wl with
      | true =>
        cases hgq : ask_gpt (gpt t) with
        | ok r => simp [dispatch, hp, handle_free_text, hall, hgq]
        | err => simp [dispatch, hp, handle_free_text, hall, hgq]
        | panicked => exact absurd hgq (hg t)
      | false => simp [dispatch, hp, handle_free_text, hall]

/-- Claim C4 witness: an ordinary text message from a sender who is not
allow-listed gets exactly one reply. -/
theorem one_reply_per_message_witness :
    (dispatch (fun _ => HttpOutcome.transportErr) .ok ⟨some "bob", some "hi"⟩ ⟨∅⟩).replies.length =
      (if (some "hi" : Option String) = none ∧ isAllowedName (some "bob") ⟨∅⟩ = true
        then 0 else 1) :=
  one_reply_per_message (fun _ => HttpOutcome.transportErr) ⟨some "bob", some "hi"⟩ ⟨∅⟩
    (fun _ => (by decide : ask_gpt HttpOutcome.transportErr ≠ AskResult.panicked))

end Twm
